import Mathlib

/-!
Verification of the autonomous multi-agent coordination core.

Shallow embedding of the Python modules under src/agent:
  models.py, base_agent.py, specialized_agents.py, system_coordinator.py, utils.py.

Modelling conventions:
  - Python dataclasses become Lean structures; string-valued status fields
    become an inductive with one constructor per constant in models.TaskStatus.
  - Python dicts that are used as records become structures whose Option
    fields encode key presence; insertion-ordered dicts keyed by strings
    become association lists.
  - The opaque external code-generation call is a parameter: each execution
    is driven by an explicit outcome value (streamed text, transport failure,
    or a raised exception), mirroring the catch points of the source.
  - Timestamps are abstracted to presence flags; the fresh task identifier
    built from a wall-clock timestamp becomes an explicit parameter.
-/

namespace MultiAgent

/-- models.TaskStatus: the four string constants of the source. -/
inductive TaskStatus where
  | pending
  | inProgress
  | completed
  | failed
deriving DecidableEq, Repr

/-- Result dict built by CodingAgent.execute_coding_task (and the error dicts
of its failure paths).  Option fields encode presence of the dict key. -/
structure ResultDict where
  taskDescription : Option String := none
  agentId : Option String := none
  specialization : Option String := none
  response : Option String := none
  error : Option String := none
  createdFiles : Option (List String) := none
  timestampKey : Bool := false
  warning : Option String := none
deriving DecidableEq, Repr

/-- Task.result payload: a plain string on the base-agent path, a dict on the
coding-agent path. -/
inductive TaskResult where
  | str (s : String)
  | dict (d : ResultDict)
deriving DecidableEq, Repr

/-- models.Task.  completedAt abstracts the completion timestamp to presence. -/
structure Task where
  id : String
  description : String
  assignedTo : String
  status : TaskStatus := .pending
  completedAt : Bool := false
  result : Option TaskResult := none
  priority : Int := 1
  toolsNeeded : List String := []
  dependencies : List String := []
  estimatedDuration : Option Int := none
deriving DecidableEq, Repr

/-- Metadata mapping carried by an AgentMessage (task id / priority /
tool-list passthrough used by the coordinator). -/
structure MsgMeta where
  taskId : Option String := none
  priority : Option Int := none
  toolsNeeded : Option (List String) := none
deriving DecidableEq, Repr

/-- models.AgentMessage (timestamp omitted). -/
structure AgentMessage where
  senderId : String
  receiverId : String
  messageType : String
  content : String
  metadata : MsgMeta := {}
deriving DecidableEq, Repr

/-- Stored entry of AutonomousAgent.task_results: the dict
with the task object and its result (completion time abstracted away). -/
structure StoredResult where
  task : Task
  result : TaskResult
deriving DecidableEq, Repr

/-- Mutable state of an AutonomousAgent / CodingAgent.

The base agent never creates the recent_task_results attribute, so for base
agents the recentTaskResults field stays [] (hasattr false behaves the same
as an empty buffer at every use site).  specialization is only read by the
coding-agent code paths.  conversationHistory only matters through its
length. -/
structure AgentState where
  agentId : String
  role : String
  specialization : String := ""
  isRunning : Bool := false
  completedTasks : Nat := 0
  currentTasks : List Task := []
  messageQueue : List AgentMessage := []
  taskResults : List (String × StoredResult) := []
  recentTaskResults : List ResultDict := []
  conversationHistory : Nat := 0
deriving Repr

/-! ## Small helpers over task lists and association lists

Tasks are Python objects mutated in place; the coordinator-level code
identifies them by their id field.  updTask models in-place mutation of the
task with a given id, rmTask models list.remove of that task. -/

/-- Find the task with the given id (first match, as Python identity lookup
under unique ids). -/
def lookupTask : List Task → String → Option Task
  | [], _ => none
  | t :: rest, i => if t.id = i then some t else lookupTask rest i

/-- Replace the task with the given id by an updated record (in-place
mutation of the shared object). -/
def updTask (l : List Task) (i : String) (t' : Task) : List Task :=
  l.map (fun t => if t.id = i then t' else t)

/-- list.remove of the task with the given id. -/
def rmTask (l : List Task) (i : String) : List Task :=
  l.filter (fun t => t.id ≠ i)

/-- Insertion-ordered dict update: self.task_results[k] = v. -/
def setAssoc (m : List (String × StoredResult)) (k : String) (v : StoredResult) :
    List (String × StoredResult) :=
  if m.any (fun p => p.1 = k) then m.map (fun p => if p.1 = k then (k, v) else p)
  else m ++ [(k, v)]

/-- Python "\n".join. -/
def strJoinNl (parts : List String) : String :=
  String.intercalate "\n" parts

/-- Check that the first list starts the second one. -/
def startsWithL : List Char → List Char → Bool
  | [], _ => true
  | _ :: _, [] => false
  | p :: ps, c :: cs => p = c && startsWithL ps cs

/-- Check that pat occurs contiguously somewhere in the second list. -/
def containsSeq (pat : List Char) : List Char → Bool
  | [] => startsWithL pat []
  | c :: cs => startsWithL pat (c :: cs) || containsSeq pat cs

/-- Python substring test: pat in s. -/
def pyStrIn (pat s : String) : Bool :=
  containsSeq pat.data s.data

/-- Python str.lower (character-wise lowering). -/
def strToLower (s : String) : String :=
  String.mk (s.data.map Char.toLower)

/-! ## specialized_agents.ProjectManagerAgent: decomposition fallback -/

/-- Keyword set routed to frontend_coder by _create_fallback_task. -/
def frontendKeywords : List String :=
  ["react", "vue", "html", "css", "frontend", "ui", "component"]

/-- Keyword set routed to devops_coder by _create_fallback_task. -/
def devopsKeywords : List String :=
  ["docker", "deploy", "ci", "cd", "kubernetes", "devops"]

/-- Assignee classification inside ProjectManagerAgent._create_fallback_task. -/
def fallbackAssignee (mainTask : String) : String :=
  let taskLower := strToLower mainTask
  if frontendKeywords.any (fun w => pyStrIn w taskLower) then "frontend_coder"
  else if devopsKeywords.any (fun w => pyStrIn w taskLower) then "devops_coder"
  else "backend_coder"

/-- ProjectManagerAgent._create_fallback_task. -/
def createFallbackTask (mainTask : String) : List Task :=
  [{ id := "fallback_task_1"
     description := mainTask
     assignedTo := fallbackAssignee mainTask
     priority := 1
     estimatedDuration := some 30
     toolsNeeded := ["Write", "Edit", "Read"]
     dependencies := [] }]

/-- Control-flow outcomes of ProjectManagerAgent.analyze_and_delegate_task.
The streamed call and the regex/JSON extraction are opaque here; each
constructor names one of the exits of the source function. -/
inductive DecompositionEvent where
  | sdkUnavailable
  | queryFail (e : String)
  | emptyResponse
  | noJsonFound
  | jsonParseFailure
  | outerException (e : String)
  | parsedSubtasks (ts : List Task)
deriving Repr

/-- ProjectManagerAgent.analyze_and_delegate_task: every exit except a parse
producing at least one subtask falls back to _create_fallback_task. -/
def analyzeAndDelegateTask (mainTask : String) (ev : DecompositionEvent) : List Task :=
  match ev with
  | .parsedSubtasks ts => if ts.isEmpty then createFallbackTask mainTask else ts
  | _ => createFallbackTask mainTask

/-! ## utils.TaskBuilder -/

/-- utils.TaskBuilder mutable fields. -/
structure TaskBuilder where
  objective : String := ""
  requirements : List String := []
  constraints : List String := []
  deliverables : List String := []
deriving Repr

/-- task_parts list assembled by TaskBuilder.build before joining; empty
string and empty lists are falsy and skip their section. -/
def TaskBuilder.buildParts (b : TaskBuilder) : List String :=
  let p1 : List String :=
    if b.objective = "" then [] else ["Main Objective: " ++ b.objective]
  let p2 :=
    if b.requirements.isEmpty then p1
    else p1 ++ ["Requirements:"] ++ b.requirements.map (fun r => "- " ++ r)
  let p3 :=
    if b.constraints.isEmpty then p2
    else p2 ++ ["Constraints:"] ++ b.constraints.map (fun c => "- " ++ c)
  if b.deliverables.isEmpty then p3
  else p3 ++ ["Deliverables:"] ++ b.deliverables.map (fun d => "- " ++ d)

/-- TaskBuilder.build: "\n".join(task_parts). -/
def TaskBuilder.build (b : TaskBuilder) : String :=
  strJoinNl b.buildParts

/-- Decompose a character list at newline characters. -/
def splitNl : List Char → List (List Char)
  | [] => [[]]
  | c :: rest =>
      if c = '\n' then [] :: splitNl rest
      else
        match splitNl rest with
        | [] => [[c]]
        | l :: ls => (c :: l) :: ls

/-- Lines of a string (split at newline characters). -/
def linesOf (s : String) : List String :=
  (splitNl s.data).map fun l => String.mk l

/-! ## specialized_agents.CodingAgent: recent-results ring buffer -/

/-- Append a result and trim to the most recent 10, as in
CodingAgent._execute_task. -/
def pushRecent (buf : List ResultDict) (r : ResultDict) : List ResultDict :=
  let b := buf ++ [r]
  if b.length > 10 then b.drop (b.length - 10) else b

/-- Python l[-n:]. -/
def lastN {α : Type} (n : Nat) (l : List α) : List α :=
  l.drop (l.length - n)

/-! ## base_agent.AutonomousAgent: task execution and autonomous loop

The streamed external call is opaque; ExecOutcome says what the await of
execute_claude_query produced: the accumulated assistant text blocks, or a
raised exception (the only catch point of _execute_task). -/

/-- Outcome of the external call inside AutonomousAgent._execute_task. -/
inductive ExecOutcome where
  | success (parts : List String)
  | exc (e : String)
deriving Repr

/-- AutonomousAgent._execute_task.  On success: result joined from the text
blocks (default "Task completed" when empty), status completed with a
completion timestamp, counter incremented, task removed from current_tasks,
entry stored in task_results.  On exception: status failed and an
error-describing result, nothing else. -/
def executeTaskBase (st : AgentState) (t : Task) (o : ExecOutcome) : AgentState :=
  let t1 : Task := { t with status := .inProgress }
  match o with
  | .success parts =>
      let resStr := if parts.isEmpty then "Task completed" else strJoinNl parts
      let t2 : Task :=
        { t1 with result := some (.str resStr), status := .completed, completedAt := true }
      { st with
        currentTasks := rmTask (updTask st.currentTasks t.id t2) t.id
        completedTasks := st.completedTasks + 1
        taskResults := setAssoc st.taskResults t.id ⟨t2, .str resStr⟩ }
  | .exc e =>
      let t2 : Task := { t1 with status := .failed, result := some (.str ("Error: " ++ e)) }
      { st with currentTasks := updTask st.currentTasks t.id t2 }

/-! ## specialized_agents.CodingAgent: overridden task execution -/

/-- Outcome of one CodingAgent task execution.  The first three are the
return paths of execute_coding_task (SDK missing, query raised inside it,
query streamed to completion with directory listings taken before and
after); raise models an exception escaping execute_coding_task and reaching
the except clause of the override. -/
inductive CodingOutcome where
  | sdkUnavailable
  | queryFail (e : String)
  | querySuccess (parts : List String) (filesBefore filesAfter : List String)
  | raiseExc (e : String)
deriving Repr

/-- Error dict returned by the failure paths of execute_coding_task. -/
def codingErrorResult (st : AgentState) (desc : String) (err : String) : ResultDict :=
  { taskDescription := some desc
    agentId := some st.agentId
    specialization := some st.specialization
    error := some err
    createdFiles := some []
    timestampKey := true }

/-- Result dict returned by the success path of execute_coding_task:
created_files is the directory-listing diff, and a warning key is attached
when the diff is empty.  (The Python set difference is modelled as a filter;
no claim depends on the iteration order of the set.) -/
def codingSuccessResult (st : AgentState) (desc : String) (parts : List String)
    (filesBefore filesAfter : List String) : ResultDict :=
  let created := filesAfter.filter (fun x => ¬ filesBefore.contains x)
  { taskDescription := some desc
    agentId := some st.agentId
    specialization := some st.specialization
    response := some (strJoinNl parts)
    createdFiles := some created
    timestampKey := true
    warning :=
      if created.isEmpty then
        some "No files were created - Claude Code SDK may not have executed tools"
      else none }

/-- CodingAgent.execute_coding_task: returns the result dict; only the
query-success path increments completed_tasks (its second-to-last
statement). -/
def executeCodingTaskFn (st : AgentState) (desc : String) (o : CodingOutcome) :
    AgentState × ResultDict :=
  match o with
  | .sdkUnavailable => (st, codingErrorResult st desc "Claude Code SDK not available")
  | .queryFail e => (st, codingErrorResult st desc ("SDK execution failed: " ++ e))
  | .querySuccess parts fb fa =>
      ({ st with completedTasks := st.completedTasks + 1 },
        codingSuccessResult st desc parts fb fa)
  | .raiseExc _ => (st, codingErrorResult st desc "unreachable")

/-- CodingAgent._execute_task: delegates to execute_coding_task, stores the
dict as the task result, marks the task completed, increments the counter
again, pushes the result into the recent-results buffer and removes the task
from current_tasks; the except clause marks the task failed with an
error/created_files dict and changes nothing else. -/
def codingExecuteTask (st : AgentState) (t : Task) (o : CodingOutcome) : AgentState :=
  match o with
  | .raiseExc e =>
      let t2 : Task :=
        { t with status := .failed
                 result := some (.dict { error := some e, createdFiles := some [] }) }
      { st with currentTasks := updTask st.currentTasks t.id t2 }
  | _ =>
      let t1 : Task := { t with status := .inProgress }
      let p := executeCodingTaskFn st t.description o
      let st1 := p.1
      let res := p.2
      let t2 : Task :=
        { t1 with result := some (.dict res), status := .completed, completedAt := true }
      { st1 with
        currentTasks := rmTask (updTask st1.currentTasks t.id t2) t.id
        completedTasks := st1.completedTasks + 1
        recentTaskResults := pushRecent st1.recentTaskResults res }

/-- Dispatch between the base implementation and the coding-agent override
of _execute_task. -/
inductive Outcome where
  | base (o : ExecOutcome)
  | coding (o : CodingOutcome)
deriving Repr

/-- One task execution, base or overridden. -/
def execTask (st : AgentState) (t : Task) : Outcome → AgentState
  | .base o => executeTaskBase st t o
  | .coding o => codingExecuteTask st t o

/-- Pending Task built from a task_request message.  newId stands for the
fresh identifier built from the agent id and the wall-clock timestamp. -/
def taskFromMessage (agentId : String) (m : AgentMessage) (newId : String) : Task :=
  { id := newId
    description := m.content
    assignedTo := agentId
    toolsNeeded := m.metadata.toolsNeeded.getD []
    priority := m.metadata.priority.getD 1 }

/-- AutonomousAgent._process_agent_message: a task_request message becomes a
new pending Task appended to current_tasks. -/
def processAgentMessage (st : AgentState) (m : AgentMessage) (newId : String) : AgentState :=
  if m.messageType = "task_request" then
    { st with currentTasks := st.currentTasks ++ [taskFromMessage st.agentId m newId] }
  else st

/-- One snapshot element of the task-scanning phase: re-read the live task
by id and execute it when it is still pending. -/
def scanStep (f : Task → Outcome) (s : AgentState) (t : Task) : AgentState :=
  match lookupTask s.currentTasks t.id with
  | some tl => if tl.status = .pending then execTask s tl (f tl) else s
  | none => s

/-- Task-scanning phase of _run_autonomous_loop: iterate over a snapshot of
current_tasks and execute every task that is still pending at its turn
(checked on the live object, here via lookup by id). -/
def scanTasks (f : Task → Outcome) : List Task → AgentState → AgentState
  | [], s => s
  | t :: rest, s => scanTasks f rest (scanStep f s t)

/-- One iteration of _run_autonomous_loop: dequeue at most one inbound
message, then scan the snapshot of the (possibly extended) task list. -/
def loopIterBody (st : AgentState) (f : Task → Outcome) (newId : String) : AgentState :=
  let st1 :=
    match st.messageQueue with
    | [] => st
    | m :: rest => processAgentMessage { st with messageQueue := rest } m newId
  scanTasks f st1.currentTasks st1

/-! ## base_agent.AutonomousAgent.get_status -/

/-- Entry of the heterogeneous recent_results list in an AgentStatus: result
dicts for coding agents, task ids for base agents. -/
inductive RecentEntry where
  | res (r : ResultDict)
  | taskId (s : String)
deriving DecidableEq, Repr

/-- models.AgentStatus. -/
structure AgentStatus where
  agentId : String
  role : String
  isRunning : Bool
  completedTasks : Nat
  currentTasksCount : Nat
  pendingMessages : Nat
  recentResults : List RecentEntry
  messageHistoryLength : Nat
deriving Repr

/-- AutonomousAgent.get_status. -/
def getStatus (st : AgentState) : AgentStatus :=
  let recentResults : List RecentEntry :=
    if ¬ st.recentTaskResults.isEmpty then
      (lastN 5 st.recentTaskResults).map RecentEntry.res
    else if ¬ st.taskResults.isEmpty then
      (lastN 5 (st.taskResults.map Prod.fst)).map RecentEntry.taskId
    else []
  { agentId := st.agentId
    role := st.role
    isRunning := st.isRunning
    completedTasks := st.completedTasks
    currentTasksCount := st.currentTasks.length
    pendingMessages := st.messageQueue.length
    recentResults := recentResults
    messageHistoryLength := st.conversationHistory }

/-! ## system_coordinator.AutonomousMultiAgentSystem -/

/-- Summary entry appended to the project record for every subtask. -/
structure SubtaskSummary where
  id : String
  description : String
  assignedTo : String
  priority : Int
deriving DecidableEq, Repr

/-- Project record held by the coordinator (timestamps abstracted to the
ended flag). -/
structure ProjectInfo where
  taskDescription : String
  status : String
  subtasksSummary : List SubtaskSummary := []
  results : List ResultDict := []
  createdFiles : List String := []
  error : Option String := none
  ended : Bool := false
deriving Repr

/-- Coordinator state: the project manager and coding agents (codingIds
lists the keys of the coding_agents dict), completed projects, the
submission FIFO and the inter-agent message log. -/
structure SystemState where
  allAgents : List (String × AgentState)
  codingIds : List String
  completedProjects : List ProjectInfo := []
  globalTaskQueue : List String := []
  messageLog : List AgentMessage := []
  isRunning : Bool := false
deriving Repr

/-- models.SystemStatus. -/
structure SystemStatus where
  systemRunning : Bool
  totalAgents : Nat
  totalCompletedTasks : Nat
  totalActiveTasks : Nat
  pendingProjects : Nat
  completedProjects : Nat
  agentDetails : List (String × AgentStatus)
deriving Repr

/-- AutonomousMultiAgentSystem.get_system_status. -/
def getSystemStatus (sys : SystemState) : SystemStatus :=
  let details := sys.allAgents.map (fun p => (p.1, getStatus p.2))
  { systemRunning := sys.isRunning
    totalAgents := sys.allAgents.length
    totalCompletedTasks := (details.map (fun p => p.2.completedTasks)).sum
    totalActiveTasks := (details.map (fun p => p.2.currentTasksCount)).sum
    pendingProjects := sys.globalTaskQueue.length
    completedProjects := sys.completedProjects.length
    agentDetails := details }

/-- Deliver a message into the inbound queue of the named agent
(send_message_to_agent on the receiver looked up in coding_agents). -/
def sendMessageToAgent (sys : SystemState) (aid : String) (m : AgentMessage) : SystemState :=
  { sys with
    allAgents := sys.allAgents.map (fun p =>
      if p.1 = aid then (p.1, { p.2 with messageQueue := p.2.messageQueue ++ [m] }) else p) }

/-- Project record as first assembled by _process_main_task. -/
def initialProjectInfo (mainTask : String) : ProjectInfo :=
  { taskDescription := mainTask, status := "in_progress" }

/-- Subtask-assignment phase of _process_main_task: every subtask is
summarised; subtasks whose assignee is a known coding agent additionally
get a task_request AgentMessage (logged in message_log) and are remembered
as (agent id, subtask id) pairs. -/
def dispatchGo : SystemState → List Task → ProjectInfo → List (String × String) →
    SystemState × ProjectInfo × List (String × String)
  | s, [], p, pairs => (s, p, pairs)
  | s, sub :: rest, p, pairs =>
      let p' :=
        { p with subtasksSummary := p.subtasksSummary ++
            [{ id := sub.id, description := sub.description,
               assignedTo := sub.assignedTo, priority := sub.priority }] }
      if s.codingIds.contains sub.assignedTo then
        let m : AgentMessage :=
          { senderId := "project_manager"
            receiverId := sub.assignedTo
            messageType := "task_request"
            content := sub.description
            metadata := { taskId := some sub.id, priority := some sub.priority,
                          toolsNeeded := some sub.toolsNeeded } }
        let s' := sendMessageToAgent s sub.assignedTo m
        let s'' := { s' with messageLog := s'.messageLog ++ [m] }
        dispatchGo s'' rest p' (pairs ++ [(sub.assignedTo, sub.id)])
      else dispatchGo s rest p' pairs

/-- Wrapper matching the shape of the loop in _process_main_task. -/
def dispatchSubtasks (sys : SystemState) (subtasks : List Task) (pi : ProjectInfo) :
    SystemState × ProjectInfo × List (String × String) :=
  dispatchGo sys subtasks pi []

/-- Result of _wait_for_agents_completion as observed by the collection
code: either the poll saw every assigned agent drain its task list (bufAt
gives each agent recent_task_results at that moment), or the 300s limit
elapsed and nothing was collected. -/
inductive WaitOutcome where
  | drained (bufAt : String → List ResultDict)
  | timedOut

/-- Collect one recent-results buffer into the project record: every dict
result is appended and its created_files (when present and non-empty) are
flattened into the file list. -/
def collectFromBuffer (pi : ProjectInfo) (buf : List ResultDict) : ProjectInfo :=
  buf.foldl
    (fun p r =>
      let p := { p with results := p.results ++ [r] }
      match r.createdFiles with
      | some fs => if ¬ fs.isEmpty then { p with createdFiles := p.createdFiles ++ fs } else p
      | none => p)
    pi

/-- Result-collection loop of _wait_for_agents_completion: one pass per
assigned (agent, subtask) pair, reading that agent whole buffer when it is
present and non-empty. -/
def collectAll (pairs : List (String × String)) (bufAt : String → List ResultDict)
    (pi : ProjectInfo) : ProjectInfo :=
  pairs.foldl
    (fun p pr =>
      let buf := bufAt pr.1
      if ¬ buf.isEmpty then collectFromBuffer p buf else p)
    pi

/-- Wait phase of _process_main_task. -/
def waitAndCollect (pairs : List (String × String)) (w : WaitOutcome) (pi : ProjectInfo) :
    ProjectInfo :=
  match w with
  | .drained bufAt => collectAll pairs bufAt pi
  | .timedOut => pi

/-- Final classification at the end of _process_main_task: has_results,
has_files and has_errors are inlined into the condition. -/
def classifyProject (pi : ProjectInfo) : ProjectInfo :=
  if pi.results.length > 0 ∧
      (pi.createdFiles.length > 0 ∨ ¬ pi.results.any (fun r => r.error.isSome)) then
    { pi with status := "completed", ended := true }
  else
    { pi with status := "failed", error := some "No successful results or files created",
              ended := true }

/-- AutonomousMultiAgentSystem._process_main_task.  deco is the result of
the awaited project-manager decomposition (error = the exception caught at
the call site, turning the subtask list empty); w drives the wait phase. -/
def processMainTask (sys : SystemState) (mainTask : String)
    (deco : Except String (List Task)) (w : WaitOutcome) : SystemState :=
  let pi := initialProjectInfo mainTask
  let subtasks := match deco with | .ok l => l | .error _ => []
  if subtasks.isEmpty then
    let pi := { pi with status := "failed", error := some "Task analysis failed" }
    { sys with completedProjects := sys.completedProjects ++ [pi] }
  else
    let d := dispatchSubtasks sys subtasks pi
    let sys1 := d.1
    let pi1 := d.2.1
    let pairs := d.2.2
    let pi2 := waitAndCollect pairs w pi1
    let pi3 := classifyProject pi2
    { sys1 with completedProjects := sys1.completedProjects ++ [pi3] }

/-- Idle check inside wait_for_completion: every agent status in the
snapshot reports zero in-flight tasks. -/
def allIdle (s : SystemStatus) : Bool :=
  s.agentDetails.all (fun p => p.2.currentTasksCount = 0)

/-- Polling loop of wait_for_completion.  remaining is the time budget left
in seconds (each unsuccessful poll sleeps 2s); slept counts the executed
sleeps.  Returns the sleep count together with the returned snapshot. -/
def waitForCompletionGo (sys : SystemState) : Nat → Nat → Nat × SystemStatus
  | 0, slept => (slept, getSystemStatus sys)
  | remaining + 1, slept =>
      let status := getSystemStatus sys
      if allIdle status && sys.globalTaskQueue.isEmpty then (slept, status)
      else waitForCompletionGo sys (remaining + 1 - 2) (slept + 1)
  termination_by remaining _ => remaining
  decreasing_by omega

/-- AutonomousMultiAgentSystem.wait_for_completion (timeout in minutes). -/
def waitForCompletion (sys : SystemState) (timeoutMinutes : Nat) : Nat × SystemStatus :=
  waitForCompletionGo sys (timeoutMinutes * 60) 0

/-! ## Status order and result invariants used by the lifecycle claims -/

/-- Numeric rank of a status along pending, in_progress, terminal. -/
def TaskStatus.rank : TaskStatus → Nat
  | .pending => 0
  | .inProgress => 1
  | .completed => 2
  | .failed => 2

/-- Terminal statuses. -/
def TaskStatus.isTerminal : TaskStatus → Bool
  | .completed => true
  | .failed => true
  | .pending => false
  | .inProgress => false

/-- Result presence tracks terminality: the result field is populated exactly
on the terminal statuses. -/
@[reducible] def resultMatchesStatus (t : Task) : Prop :=
  t.result.isSome = t.status.isTerminal

/-- Every in-flight task of the agent satisfies resultMatchesStatus. -/
@[reducible] def InvAll (st : AgentState) : Prop :=
  ∀ t ∈ st.currentTasks, resultMatchesStatus t

/-- Uniqueness of task identifiers in a task list. -/
@[reducible] def NodupIds (l : List Task) : Prop :=
  (l.map Task.id).Nodup

/-- Forward evolution of one task record: rank never decreases, terminal
records are frozen, and a populated result is never reassigned. -/
def TaskEvolves (a b : Task) : Prop :=
  a.status.rank ≤ b.status.rank ∧
  (a.status.isTerminal = true → b = a) ∧
  (a.result.isSome = true → b.result = a.result)

/-- Forward evolution of the in-flight task list between two agent states:
no task appears from nowhere, terminal tasks stay untouched, and every
surviving task evolves forward. -/
def StateEvolves (s₀ s₁ : AgentState) : Prop :=
  ∀ j : String,
    (lookupTask s₀.currentTasks j = none → lookupTask s₁.currentTasks j = none) ∧
    ∀ a, lookupTask s₀.currentTasks j = some a →
      (a.status.isTerminal = true → lookupTask s₁.currentTasks j = some a) ∧
      (lookupTask s₁.currentTasks j = none ∨
        ∃ b, lookupTask s₁.currentTasks j = some b ∧ TaskEvolves a b)

/-! ## Helper lemmas about task-list primitives -/

theorem lookupTask_self {l : List Task} (hnd : NodupIds l) {t : Task} (ht : t ∈ l) :
    lookupTask l t.id = some t := by
  induction l with
  | nil => cases ht
  | cons u rest ih =>
    have hcons : (∀ x ∈ rest, ¬ x.id = u.id) ∧ (rest.map Task.id).Nodup := by
      simpa [NodupIds] using hnd
    rcases List.mem_cons.mp ht with rfl | hmem
    · simp [lookupTask]
    · have hne : u.id ≠ t.id := fun h => hcons.1 t hmem h.symm
      rw [lookupTask, if_neg hne]
      exact ih hcons.2 hmem

theorem lookupTask_mem {l : List Task} {j : String} {a : Task}
    (h : lookupTask l j = some a) : a ∈ l ∧ a.id = j := by
  induction l with
  | nil => cases h
  | cons u rest ih =>
    rw [lookupTask] at h
    by_cases hu : u.id = j
    · rw [if_pos hu] at h
      cases h
      exact ⟨List.mem_cons_self _ _, hu⟩
    · rw [if_neg hu] at h
      obtain ⟨hm, hid⟩ := ih h
      exact ⟨List.mem_cons_of_mem _ hm, hid⟩

theorem lookupTask_append_left {l l₂ : List Task} {j : String} {a : Task}
    (h : lookupTask l j = some a) : lookupTask (l ++ l₂) j = some a := by
  induction l with
  | nil => cases h
  | cons u rest ih =>
    rw [lookupTask] at h
    by_cases hu : u.id = j
    · rw [if_pos hu] at h
      cases h
      simp [lookupTask, hu]
    · rw [if_neg hu] at h
      simpa [lookupTask, hu] using ih h

theorem lookupTask_upd_ne (l : List Task) {i j : String} (t' : Task) (ht' : t'.id = i)
    (hij : j ≠ i) : lookupTask (updTask l i t') j = lookupTask l j := by
  induction l with
  | nil => rfl
  | cons u rest ih =>
    rw [updTask, List.map_cons]
    by_cases hu : u.id = i
    · rw [if_pos hu]
      simp only [lookupTask]
      rw [if_neg (fun h : t'.id = j => hij (h ▸ ht')),
          if_neg (fun h : u.id = j => hij (h ▸ hu))]
      exact ih
    · rw [if_neg hu]
      simp only [lookupTask]
      by_cases huj : u.id = j
      · rw [if_pos huj, if_pos huj]
      · rw [if_neg huj, if_neg huj]
        exact ih

theorem lookupTask_upd_self (l : List Task) {i : String} (t' : Task) (ht' : t'.id = i)
    {a : Task} (ha : lookupTask l i = some a) :
    lookupTask (updTask l i t') i = some t' := by
  induction l with
  | nil => cases ha
  | cons u rest ih =>
    rw [lookupTask] at ha
    rw [updTask, List.map_cons]
    by_cases hu : u.id = i
    · rw [if_pos hu]
      simp only [lookupTask]
      rw [if_pos ht']
    · rw [if_neg hu] at ha
      rw [if_neg hu]
      simp only [lookupTask]
      rw [if_neg hu]
      exact ih ha

theorem lookupTask_rm_self (l : List Task) (i : String) :
    lookupTask (rmTask l i) i = none := by
  induction l with
  | nil => rfl
  | cons u rest ih =>
    rw [rmTask, List.filter_cons]
    by_cases hu : u.id = i
    · rw [if_neg (by simp [hu])]
      exact ih
    · rw [if_pos (by simp [hu])]
      simp only [lookupTask]
      rw [if_neg hu]
      exact ih

theorem lookupTask_rm_ne (l : List Task) {i j : String} (hij : j ≠ i) :
    lookupTask (rmTask l i) j = lookupTask l j := by
  induction l with
  | nil => rfl
  | cons u rest ih =>
    rw [rmTask, List.filter_cons]
    by_cases hu : u.id = i
    · rw [if_neg (by simp [hu])]
      rw [lookupTask, if_neg (fun h : u.id = j => hij (h ▸ hu))]
      exact ih
    · rw [if_pos (by simp [hu])]
      simp only [lookupTask]
      by_cases huj : u.id = j
      · rw [if_pos huj, if_pos huj]
      · rw [if_neg huj, if_neg huj]
        exact ih

theorem updTask_map_id (l : List Task) {i : String} (t' : Task) (ht' : t'.id = i) :
    (updTask l i t').map Task.id = l.map Task.id := by
  induction l with
  | nil => rfl
  | cons u rest ih =>
    rw [updTask, List.map_cons, List.map_cons, List.map_cons]
    have htail : (List.map (fun t => if t.id = i then t' else t) rest).map Task.id
        = rest.map Task.id := ih
    by_cases hu : u.id = i
    · rw [if_pos hu, htail, ht', hu]
    · rw [if_neg hu, htail]

theorem mem_updTask {l : List Task} {i : String} {t' u : Task} (hu : u ∈ updTask l i t') :
    u = t' ∨ u ∈ l := by
  rw [updTask, List.mem_map] at hu
  obtain ⟨v, hv, hg⟩ := hu
  by_cases hvi : v.id = i
  · rw [if_pos hvi] at hg
    exact Or.inl hg.symm
  · rw [if_neg hvi] at hg
    exact Or.inr (hg ▸ hv)

theorem rmTask_sublist (l : List Task) (i : String) : List.Sublist (rmTask l i) l :=
  List.filter_sublist l

theorem nodupIds_updTask {l : List Task} {i : String} {t' : Task} (hnd : NodupIds l)
    (ht' : t'.id = i) : NodupIds (updTask l i t') := by
  simpa [NodupIds, updTask_map_id l t' ht'] using hnd

theorem nodupIds_rmTask {l : List Task} (i : String) (hnd : NodupIds l) :
    NodupIds (rmTask l i) :=
  List.Nodup.sublist (List.Sublist.map Task.id (rmTask_sublist l i)) hnd

/-! ## Claim C2: decomposition fallback -/

/-- Exits of analyze_and_delegate_task that trigger _create_fallback_task. -/
def analyzeFallsBack : DecompositionEvent → Bool
  | .parsedSubtasks ts => ts.isEmpty
  | _ => true

/-- C2 (amended): whenever decomposition falls back, exactly one Task is
produced, with priority 1, estimated duration 30, tool list Write/Edit/Read,
and the assignee given by the keyword rule with the frontend set checked
first.  The scenario submission "Build a Docker CI pipeline for deployment"
is therefore assigned to frontend_coder, because the keyword "ui" occurs
inside the word "build"; the devops keyword set is never reached. -/
theorem fallback_single_task_keyword_rule (s : String) (ev : DecompositionEvent)
    (hev : analyzeFallsBack ev = true) :
    (∃ t : Task,
      analyzeAndDelegateTask s ev = [t] ∧
      t.priority = 1 ∧
      t.estimatedDuration = some 30 ∧
      t.toolsNeeded = ["Write", "Edit", "Read"] ∧
      t.description = s ∧
      t.assignedTo =
        (if frontendKeywords.any (fun w => pyStrIn w (strToLower s)) then "frontend_coder"
         else if devopsKeywords.any (fun w => pyStrIn w (strToLower s)) then "devops_coder"
         else "backend_coder")) ∧
    (analyzeAndDelegateTask "Build a Docker CI pipeline for deployment"
        DecompositionEvent.sdkUnavailable).map Task.assignedTo = ["frontend_coder"] := by
  constructor
  · have hfb : analyzeAndDelegateTask s ev = createFallbackTask s := by
      cases ev <;> simp_all [analyzeAndDelegateTask, analyzeFallsBack]
    refine ⟨{ id := "fallback_task_1", description := s,
              assignedTo := fallbackAssignee s, priority := 1,
              estimatedDuration := some 30, toolsNeeded := ["Write", "Edit", "Read"],
              dependencies := [] }, ?_, rfl, rfl, rfl, rfl, rfl⟩
    rw [hfb]
    rfl
  · decide

/-- C2 counterexample: the scenario in the claim expects devops_coder, but
the code assigns frontend_coder because "ui" is a substring of "build". -/
theorem fallback_scenario_counterexample :
    (analyzeAndDelegateTask "Build a Docker CI pipeline for deployment"
        DecompositionEvent.sdkUnavailable).map Task.assignedTo = ["frontend_coder"] ∧
    ("frontend_coder" : String) ≠ "devops_coder" := by
  constructor
  · decide
  · decide

/-- C2 witness: the amended theorem applied to the scenario submission with
the external service unavailable. -/
theorem fallback_single_task_keyword_rule_witness :
    analyzeFallsBack DecompositionEvent.sdkUnavailable = true ∧
    ((∃ t : Task,
      analyzeAndDelegateTask "Build a Docker CI pipeline for deployment"
          DecompositionEvent.sdkUnavailable = [t] ∧
      t.priority = 1 ∧
      t.estimatedDuration = some 30 ∧
      t.toolsNeeded = ["Write", "Edit", "Read"] ∧
      t.description = "Build a Docker CI pipeline for deployment" ∧
      t.assignedTo =
        (if frontendKeywords.any (fun w =>
              pyStrIn w (strToLower "Build a Docker CI pipeline for deployment"))
         then "frontend_coder"
         else if devopsKeywords.any (fun w =>
              pyStrIn w (strToLower "Build a Docker CI pipeline for deployment"))
         then "devops_coder"
         else "backend_coder")) ∧
    (analyzeAndDelegateTask "Build a Docker CI pipeline for deployment"
        DecompositionEvent.sdkUnavailable).map Task.assignedTo = ["frontend_coder"]) :=
  ⟨rfl, fallback_single_task_keyword_rule "Build a Docker CI pipeline for deployment"
      DecompositionEvent.sdkUnavailable rfl⟩

/-! ## Claim C7: recent-results ring buffer -/

theorem length_lastN {α : Type} (n : Nat) (l : List α) : (lastN n l).length ≤ n := by
  simp only [lastN, List.length_drop]
  omega

theorem pushRecent_lastN (l : List ResultDict) (r : ResultDict) :
    pushRecent (lastN 10 l) r = lastN 10 (l ++ [r]) := by
  unfold pushRecent lastN
  by_cases h : l.length ≤ 9
  · have h1 : l.length - 10 = 0 := by omega
    rw [h1, List.drop_zero]
    have h2 : ¬ ((l ++ [r]).length > 10) := by
      simp only [List.length_append, List.length_cons, List.length_nil]
      omega
    rw [if_neg h2]
    have h3 : (l ++ [r]).length - 10 = 0 := by
      simp only [List.length_append, List.length_cons, List.length_nil]
      omega
    rw [h3, List.drop_zero]
  · have hk : (l.drop (l.length - 10)).length = 10 := by
      rw [List.length_drop]
      omega
    have hcond : (l.drop (l.length - 10) ++ [r]).length > 10 := by
      rw [List.length_append, hk]
      simp
    rw [if_pos hcond]
    have hlen1 : (l.drop (l.length - 10) ++ [r]).length - 10 = 1 := by
      rw [List.length_append, hk]
      simp
    rw [hlen1, List.drop_append_eq_append_drop, hk, List.drop_drop]
    have hz : 1 - 10 = 0 := by omega
    rw [hz, List.drop_zero]
    have e1 : (l ++ [r]).length - 10 = (l.length - 10) + 1 := by
      simp only [List.length_append, List.length_cons, List.length_nil]
      omega
    rw [e1, List.drop_append_eq_append_drop]
    have e2 : (l.length - 10) + 1 - l.length = 0 := by omega
    rw [e2, List.drop_zero]

theorem foldl_pushRecent_lastN (rs : List ResultDict) :
    ∀ l : List ResultDict, rs.foldl pushRecent (lastN 10 l) = lastN 10 (l ++ rs) := by
  induction rs with
  | nil =>
    intro l
    rw [List.foldl_nil, List.append_nil]
  | cons r rest ih =>
    intro l
    rw [List.foldl_cons, pushRecent_lastN, ih (l ++ [r]), List.append_assoc]
    rfl

/-- C7: folding the buffer update of CodingAgent._execute_task over any
sequence of produced results keeps at most 10 entries and keeps exactly the
most recent results in production order; the override updates the buffer by
exactly this push-and-trim step. -/
theorem recent_results_bounded_ring (rs : List ResultDict) :
    (rs.foldl pushRecent []).length ≤ 10 ∧
    rs.foldl pushRecent [] = lastN 10 rs ∧
    ∀ (st : AgentState) (t : Task) (parts fb fa : List String),
      (codingExecuteTask st t (.querySuccess parts fb fa)).recentTaskResults =
        pushRecent st.recentTaskResults (codingSuccessResult st t.description parts fb fa) := by
  have hbase : rs.foldl pushRecent [] = lastN 10 rs := foldl_pushRecent_lastN rs []
  refine ⟨?_, hbase, fun st t parts fb fa => rfl⟩
  rw [hbase]
  exact length_lastN 10 rs

/-! ## Claim C10: recent results reported by get_status -/

theorem getStatus_recentResults_eq (st : AgentState) :
    (getStatus st).recentResults =
      (if ¬ st.recentTaskResults.isEmpty then
        (lastN 5 st.recentTaskResults).map RecentEntry.res
       else if ¬ st.taskResults.isEmpty then
        (lastN 5 (st.taskResults.map Prod.fst)).map RecentEntry.taskId
       else []) := rfl

/-- C10: get_status reports at most 5 recent results: the last 5 buffer
entries of a coding agent when its buffer is non-empty, otherwise the last 5
stored task ids, although the buffer itself retains up to 10 entries. -/
theorem getStatus_recent_results_spec (st : AgentState) :
    (getStatus st).recentResults.length ≤ 5 ∧
    (getStatus st).recentResults =
      (if st.recentTaskResults.isEmpty then
        (lastN 5 (st.taskResults.map Prod.fst)).map RecentEntry.taskId
       else (lastN 5 st.recentTaskResults).map RecentEntry.res) := by
  rw [getStatus_recentResults_eq]
  by_cases hb : st.recentTaskResults.isEmpty
  · by_cases ht : st.taskResults.isEmpty
    · have ht' : st.taskResults = [] := List.isEmpty_iff.mp ht
      refine ⟨?_, ?_⟩ <;> simp [hb, ht, ht', lastN]
    · refine ⟨?_, ?_⟩
      · rw [if_neg (fun hcon => hcon hb), if_pos ht, List.length_map]
        exact length_lastN 5 _
      · rw [if_neg (fun hcon => hcon hb), if_pos ht, if_pos hb]
  · refine ⟨?_, ?_⟩
    · rw [if_pos hb, List.length_map]
      exact length_lastN 5 _
    · rw [if_pos hb, if_neg hb]

/-! ## Claim C9: wait_for_completion with a zero timeout on an idle system -/

/-- C9: with timeout_minutes = 0 on a system where every agent holds no
in-flight task and the submission queue is empty, the polling loop body is
never entered (zero sleeps) and the returned snapshot reports zero active
tasks. -/
theorem waitForCompletion_zero_idle (sys : SystemState)
    (hAgents : ∀ p ∈ sys.allAgents, (p.2).currentTasks = [])
    (_hq : sys.globalTaskQueue = []) :
    waitForCompletion sys 0 = (0, getSystemStatus sys) ∧
    (getSystemStatus sys).totalActiveTasks = 0 := by
  constructor
  · rw [waitForCompletion]
    norm_num
    rw [waitForCompletionGo]
  · show ((sys.allAgents.map (fun p => (p.1, getStatus p.2))).map
        (fun p => p.2.currentTasksCount)).sum = 0
    apply List.sum_eq_zero
    intro x hx
    rw [List.map_map, List.mem_map] at hx
    obtain ⟨p, hp, rfl⟩ := hx
    show (p.2.currentTasks).length = 0
    rw [hAgents p hp]
    rfl

/-- Concrete idle two-agent system used by the zero-timeout witness. -/
def idleDemoSystem : SystemState :=
  { allAgents := [("project_manager", { agentId := "project_manager", role := "project_manager" }),
                  ("backend_coder", { agentId := "backend_coder", role := "backend_coder" })],
    codingIds := ["frontend_coder", "backend_coder", "devops_coder"] }

/-- C9 witness: a concrete idle two-agent system. -/
theorem waitForCompletion_zero_idle_witness :
    (∀ p ∈ idleDemoSystem.allAgents, (p.2).currentTasks = []) ∧
    idleDemoSystem.globalTaskQueue = [] ∧
    (waitForCompletion idleDemoSystem 0 = (0, getSystemStatus idleDemoSystem) ∧
      (getSystemStatus idleDemoSystem).totalActiveTasks = 0) :=
  ⟨by decide, rfl, waitForCompletion_zero_idle idleDemoSystem (by decide) rfl⟩

/-! ## Claim C6: decomposition failure handling in the coordinator -/

/-- C6: when decomposition raises (caught and turned into an empty list) or
returns no subtasks, exactly one project record is appended, failed with
error "Task analysis failed", and no agent state, message log entry or queue
is touched. -/
theorem decomposition_failure_single_record (sys : SystemState) (mainTask : String)
    (w : WaitOutcome) (e : String) :
    ((processMainTask sys mainTask (.error e) w).completedProjects
        = sys.completedProjects ++
          [{ taskDescription := mainTask, status := "failed",
             error := some "Task analysis failed" }] ∧
     (processMainTask sys mainTask (.error e) w).allAgents = sys.allAgents ∧
     (processMainTask sys mainTask (.error e) w).messageLog = sys.messageLog ∧
     (processMainTask sys mainTask (.error e) w).globalTaskQueue = sys.globalTaskQueue) ∧
    ((processMainTask sys mainTask (.ok []) w).completedProjects
        = sys.completedProjects ++
          [{ taskDescription := mainTask, status := "failed",
             error := some "Task analysis failed" }] ∧
     (processMainTask sys mainTask (.ok []) w).allAgents = sys.allAgents ∧
     (processMainTask sys mainTask (.ok []) w).messageLog = sys.messageLog ∧
     (processMainTask sys mainTask (.ok []) w).globalTaskQueue = sys.globalTaskQueue) :=
  ⟨⟨rfl, rfl, rfl, rfl⟩, ⟨rfl, rfl, rfl, rfl⟩⟩

/-! ## Claim C1: final project classification -/

theorem dispatchGo_frame (l : List Task) :
    ∀ (s : SystemState) (p : ProjectInfo) (pairs : List (String × String)),
      (dispatchGo s l p pairs).1.completedProjects = s.completedProjects ∧
      (dispatchGo s l p pairs).1.globalTaskQueue = s.globalTaskQueue ∧
      (dispatchGo s l p pairs).1.codingIds = s.codingIds := by
  induction l with
  | nil => intro s p pairs; exact ⟨rfl, rfl, rfl⟩
  | cons sub rest ih =>
    intro s p pairs
    simp only [dispatchGo]
    by_cases hc : s.codingIds.contains sub.assignedTo
    · rw [if_pos hc]
      exact ih _ _ _
    · rw [if_neg hc]
      exact ih _ _ _

theorem classifyProject_spec (p : ProjectInfo) :
    ((classifyProject p).status = "completed" ∨ (classifyProject p).status = "failed") ∧
    ((classifyProject p).status = "completed" ↔
      (p.results ≠ [] ∧ (p.createdFiles ≠ [] ∨ ∀ r ∈ p.results, r.error = none))) ∧
    (classifyProject p).results = p.results ∧
    (classifyProject p).createdFiles = p.createdFiles := by
  have hiff : (p.results.length > 0 ∧
      (p.createdFiles.length > 0 ∨ ¬ (p.results.any (fun r => r.error.isSome) = true)))
      ↔ (p.results ≠ [] ∧ (p.createdFiles ≠ [] ∨ ∀ r ∈ p.results, r.error = none)) := by
    simp only [gt_iff_lt, List.length_pos, List.any_eq_true]
    constructor
    · rintro ⟨h1, h2 | h2⟩
      · exact ⟨h1, Or.inl h2⟩
      · refine ⟨h1, Or.inr fun r hr => ?_⟩
        by_cases he : r.error = none
        · exact he
        · exact absurd ⟨r, hr, Option.ne_none_iff_isSome.mp he⟩ h2
    · rintro ⟨h1, h2 | h2⟩
      · exact ⟨h1, Or.inl h2⟩
      · refine ⟨h1, Or.inr ?_⟩
        rintro ⟨r, hr, hs⟩
        rw [h2 r hr] at hs
        cases hs
  unfold classifyProject
  simp only [gt_iff_lt] at hiff ⊢
  split_ifs with h
  · exact ⟨Or.inl rfl, iff_of_true rfl (hiff.mp h), rfl, rfl⟩
  · exact ⟨Or.inr rfl,
      iff_of_false (by decide : ("failed" : String) ≠ "completed")
        (fun hc => h (hiff.mpr hc)), rfl, rfl⟩

theorem processMainTask_ok_cons (sys : SystemState) (mainTask : String) (t0 : Task)
    (rest : List Task) (w : WaitOutcome) :
    processMainTask sys mainTask (.ok (t0 :: rest)) w =
      { (dispatchGo sys (t0 :: rest) (initialProjectInfo mainTask) []).1 with
        completedProjects :=
          (dispatchGo sys (t0 :: rest) (initialProjectInfo mainTask) []).1.completedProjects
            ++ [classifyProject (waitAndCollect
                  (dispatchGo sys (t0 :: rest) (initialProjectInfo mainTask) []).2.2 w
                  (dispatchGo sys (t0 :: rest) (initialProjectInfo mainTask) []).2.1)] } :=
  rfl

/-- C1: for every submission processed past decomposition, the record
appended to completed_projects is classified completed exactly when at least
one result was collected and (at least one file was collected or no dict
result carries an error key); otherwise failed.  In particular zero results
force failed, and results without files and without error keys force
completed. -/
theorem project_final_classification (sys : SystemState) (mainTask : String)
    (t0 : Task) (rest : List Task) (w : WaitOutcome) :
    ∃ pi : ProjectInfo,
      (processMainTask sys mainTask (.ok (t0 :: rest)) w).completedProjects
          = sys.completedProjects ++ [pi] ∧
      (pi.status = "completed" ∨ pi.status = "failed") ∧
      (pi.status = "completed" ↔
        (pi.results ≠ [] ∧ (pi.createdFiles ≠ [] ∨ ∀ r ∈ pi.results, r.error = none))) ∧
      (pi.results = [] → pi.status = "failed") ∧
      (pi.results ≠ [] → pi.createdFiles = [] → (∀ r ∈ pi.results, r.error = none) →
        pi.status = "completed") := by
  refine ⟨classifyProject (waitAndCollect
      (dispatchGo sys (t0 :: rest) (initialProjectInfo mainTask) []).2.2 w
      (dispatchGo sys (t0 :: rest) (initialProjectInfo mainTask) []).2.1), ?_, ?_, ?_, ?_, ?_⟩
  · rw [processMainTask_ok_cons]
    show (dispatchGo sys (t0 :: rest) (initialProjectInfo mainTask) []).1.completedProjects
        ++ _ = _
    rw [(dispatchGo_frame (t0 :: rest) sys (initialProjectInfo mainTask) []).1]
  · exact (classifyProject_spec _).1
  · have hs := classifyProject_spec (waitAndCollect
      (dispatchGo sys (t0 :: rest) (initialProjectInfo mainTask) []).2.2 w
      (dispatchGo sys (t0 :: rest) (initialProjectInfo mainTask) []).2.1)
    rw [hs.2.2.1, hs.2.2.2]
    exact hs.2.1
  · intro h0
    have hs := classifyProject_spec (waitAndCollect
      (dispatchGo sys (t0 :: rest) (initialProjectInfo mainTask) []).2.2 w
      (dispatchGo sys (t0 :: rest) (initialProjectInfo mainTask) []).2.1)
    rcases hs.1 with hc | hf
    · exfalso
      have := (hs.2.1.mp hc).1
      rw [hs.2.2.1] at h0
      exact this h0
    · exact hf
  · intro h1 h2 h3
    have hs := classifyProject_spec (waitAndCollect
      (dispatchGo sys (t0 :: rest) (initialProjectInfo mainTask) []).2.2 w
      (dispatchGo sys (t0 :: rest) (initialProjectInfo mainTask) []).2.1)
    rw [hs.2.2.1] at h1 h3
    exact hs.2.1.mpr ⟨h1, Or.inr h3⟩

/-! ## Claim C4: exception path leaves everything but the task untouched -/

/-- C4: when execution raises, the task is marked failed with an
error-describing result and stays in current_tasks; the counter, the stored
results, the recent-results buffer and the message queue are unchanged, and
every other task is untouched.  Both the base implementation and the
coding-agent override behave this way. -/
theorem exception_sets_failed_only (st : AgentState) (t : Task) (e : String)
    (ht : t ∈ st.currentTasks) (hnd : NodupIds st.currentTasks) :
    ((executeTaskBase st t (.exc e)).completedTasks = st.completedTasks ∧
     (executeTaskBase st t (.exc e)).taskResults = st.taskResults ∧
     (executeTaskBase st t (.exc e)).recentTaskResults = st.recentTaskResults ∧
     (executeTaskBase st t (.exc e)).messageQueue = st.messageQueue ∧
     (executeTaskBase st t (.exc e)).currentTasks.length = st.currentTasks.length ∧
     lookupTask (executeTaskBase st t (.exc e)).currentTasks t.id =
       some { t with status := TaskStatus.failed,
                     result := some (.str ("Error: " ++ e)) } ∧
     (∀ j, j ≠ t.id →
       lookupTask (executeTaskBase st t (.exc e)).currentTasks j =
         lookupTask st.currentTasks j)) ∧
    ((codingExecuteTask st t (.raiseExc e)).completedTasks = st.completedTasks ∧
     (codingExecuteTask st t (.raiseExc e)).taskResults = st.taskResults ∧
     (codingExecuteTask st t (.raiseExc e)).recentTaskResults = st.recentTaskResults ∧
     (codingExecuteTask st t (.raiseExc e)).messageQueue = st.messageQueue ∧
     (codingExecuteTask st t (.raiseExc e)).currentTasks.length = st.currentTasks.length ∧
     lookupTask (codingExecuteTask st t (.raiseExc e)).currentTasks t.id =
       some { t with status := TaskStatus.failed,
                     result := some (.dict { error := some e, createdFiles := some [] }) } ∧
     (∀ j, j ≠ t.id →
       lookupTask (codingExecuteTask st t (.raiseExc e)).currentTasks j =
         lookupTask st.currentTasks j)) := by
  have hself := lookupTask_self hnd ht
  constructor
  · refine ⟨rfl, rfl, rfl, rfl, ?_, ?_, ?_⟩
    · show (updTask st.currentTasks t.id _).length = _
      rw [updTask, List.length_map]
    · exact lookupTask_upd_self _ _ rfl hself
    · intro j hj
      exact lookupTask_upd_ne _ _ rfl hj
  · refine ⟨rfl, rfl, rfl, rfl, ?_, ?_, ?_⟩
    · show (updTask st.currentTasks t.id _).length = _
      rw [updTask, List.length_map]
    · exact lookupTask_upd_self _ _ rfl hself
    · intro j hj
      exact lookupTask_upd_ne _ _ rfl hj

/-- Concrete pending task used by the per-execution witnesses. -/
def exTask : Task :=
  { id := "t1", description := "write code", assignedTo := "backend_coder" }

/-- Concrete one-task agent used by the per-execution witnesses. -/
def exAgent : AgentState :=
  { agentId := "backend_coder", role := "backend_coder", currentTasks := [exTask] }

/-- C4 witness: a one-task agent whose execution raises "boom". -/
theorem exception_sets_failed_only_witness :
    exTask ∈ exAgent.currentTasks ∧
    NodupIds exAgent.currentTasks ∧
    (((executeTaskBase exAgent exTask (.exc "boom")).completedTasks
          = exAgent.completedTasks ∧
      (executeTaskBase exAgent exTask (.exc "boom")).taskResults = exAgent.taskResults ∧
      (executeTaskBase exAgent exTask (.exc "boom")).recentTaskResults
          = exAgent.recentTaskResults ∧
      (executeTaskBase exAgent exTask (.exc "boom")).messageQueue = exAgent.messageQueue ∧
      (executeTaskBase exAgent exTask (.exc "boom")).currentTasks.length
          = exAgent.currentTasks.length ∧
      lookupTask (executeTaskBase exAgent exTask (.exc "boom")).currentTasks exTask.id =
        some { exTask with status := TaskStatus.failed,
                           result := some (.str ("Error: " ++ "boom")) } ∧
      (∀ j, j ≠ exTask.id →
        lookupTask (executeTaskBase exAgent exTask (.exc "boom")).currentTasks j =
          lookupTask exAgent.currentTasks j)) ∧
     ((codingExecuteTask exAgent exTask (.raiseExc "boom")).completedTasks
          = exAgent.completedTasks ∧
      (codingExecuteTask exAgent exTask (.raiseExc "boom")).taskResults
          = exAgent.taskResults ∧
      (codingExecuteTask exAgent exTask (.raiseExc "boom")).recentTaskResults
          = exAgent.recentTaskResults ∧
      (codingExecuteTask exAgent exTask (.raiseExc "boom")).messageQueue
          = exAgent.messageQueue ∧
      (codingExecuteTask exAgent exTask (.raiseExc "boom")).currentTasks.length
          = exAgent.currentTasks.length ∧
      lookupTask (codingExecuteTask exAgent exTask (.raiseExc "boom")).currentTasks
          exTask.id =
        some { exTask with status := TaskStatus.failed,
                           result := some (.dict { error := some "boom",
                                                   createdFiles := some [] }) } ∧
      (∀ j, j ≠ exTask.id →
        lookupTask (codingExecuteTask exAgent exTask (.raiseExc "boom")).currentTasks j =
          lookupTask exAgent.currentTasks j))) :=
  ⟨by decide, by decide,
    exception_sets_failed_only exAgent exTask "boom" (by decide) (by decide)⟩

/-! ## Claim C5: success path effects (corrected: the coding override
increments the counter twice) -/

/-- C5 counterexample: on a successful external call the coding-agent
override ends with completed_tasks = 2 starting from 0, because
execute_coding_task and _execute_task each increment the counter; the claim
demands an increment of exactly one. -/
theorem coding_success_double_increment_counterexample :
    (codingExecuteTask
        { agentId := "backend_coder", role := "backend_coder",
          currentTasks := [{ id := "t1", description := "write code",
                             assignedTo := "backend_coder" }] }
        { id := "t1", description := "write code", assignedTo := "backend_coder" }
        (.querySuccess ["done"] [] [])).completedTasks = 2 ∧
    ({ agentId := "backend_coder", role := "backend_coder",
       currentTasks := [{ id := "t1", description := "write code",
                          assignedTo := "backend_coder" }] } : AgentState).completedTasks = 0 ∧
    (2 : Nat) ≠ 0 + 1 := by
  refine ⟨rfl, rfl, by decide⟩

/-- C5 (amended): on a successful external call the base path stores the
joined text result with status completed and a completion timestamp,
removes the task from current_tasks and increments the counter by exactly
one; the coding-agent override stores the result dict, pushes it into the
recent-results buffer, removes the task, and increments the counter by
exactly two (once inside execute_coding_task and once in the override). -/
theorem success_completion_effects (st : AgentState) (t : Task)
    (parts fb fa : List String) :
    ((executeTaskBase st t (.success parts)).completedTasks = st.completedTasks + 1 ∧
     lookupTask (executeTaskBase st t (.success parts)).currentTasks t.id = none ∧
     (∀ j, j ≠ t.id →
       lookupTask (executeTaskBase st t (.success parts)).currentTasks j =
         lookupTask st.currentTasks j) ∧
     (executeTaskBase st t (.success parts)).taskResults =
       setAssoc st.taskResults t.id
         ⟨{ t with status := TaskStatus.completed, completedAt := true,
                   result := some (.str (if parts.isEmpty then "Task completed"
                                         else strJoinNl parts)) },
          .str (if parts.isEmpty then "Task completed" else strJoinNl parts)⟩ ∧
     (executeTaskBase st t (.success parts)).recentTaskResults = st.recentTaskResults ∧
     (executeTaskBase st t (.success parts)).messageQueue = st.messageQueue) ∧
    ((codingExecuteTask st t (.querySuccess parts fb fa)).completedTasks
        = st.completedTasks + 2 ∧
     lookupTask (codingExecuteTask st t (.querySuccess parts fb fa)).currentTasks t.id
        = none ∧
     (∀ j, j ≠ t.id →
       lookupTask (codingExecuteTask st t (.querySuccess parts fb fa)).currentTasks j =
         lookupTask st.currentTasks j) ∧
     (codingExecuteTask st t (.querySuccess parts fb fa)).recentTaskResults =
       pushRecent st.recentTaskResults (codingSuccessResult st t.description parts fb fa) ∧
     (codingExecuteTask st t (.querySuccess parts fb fa)).taskResults = st.taskResults ∧
     (codingExecuteTask st t (.querySuccess parts fb fa)).messageQueue = st.messageQueue) := by
  constructor
  · refine ⟨rfl, ?_, ?_, rfl, rfl, rfl⟩
    · exact lookupTask_rm_self _ _
    · intro j hj
      exact (lookupTask_rm_ne _ hj).trans (lookupTask_upd_ne _ _ rfl hj)
  · refine ⟨rfl, ?_, ?_, rfl, rfl, rfl⟩
    · exact lookupTask_rm_self _ _
    · intro j hj
      exact (lookupTask_rm_ne _ hj).trans (lookupTask_upd_ne _ _ rfl hj)

/-! ## Claim C3: task-lifecycle monotonicity under the autonomous loop -/

theorem taskEvolves_refl (a : Task) : TaskEvolves a a :=
  ⟨le_rfl, fun _ => rfl, fun _ => rfl⟩

theorem taskEvolves_trans {a b c : Task} (h1 : TaskEvolves a b) (h2 : TaskEvolves b c) :
    TaskEvolves a c := by
  obtain ⟨r1, t1, p1⟩ := h1
  obtain ⟨r2, t2, p2⟩ := h2
  refine ⟨le_trans r1 r2, ?_, ?_⟩
  · intro ha
    have hb := t1 ha
    rw [hb] at t2
    exact t2 ha
  · intro hsome
    have hb := p1 hsome
    have hbs : b.result.isSome = true := by rw [hb]; exact hsome
    rw [p2 hbs]
    exact hb

theorem stateEvolves_refl (s : AgentState) : StateEvolves s s :=
  fun _ => ⟨fun h => h, fun a ha => ⟨fun _ => ha, Or.inr ⟨a, ha, taskEvolves_refl a⟩⟩⟩

theorem stateEvolves_trans {s₀ s₁ s₂ : AgentState} (h01 : StateEvolves s₀ s₁)
    (h12 : StateEvolves s₁ s₂) : StateEvolves s₀ s₂ := by
  intro j
  obtain ⟨n01, f01⟩ := h01 j
  obtain ⟨n12, f12⟩ := h12 j
  refine ⟨fun h => n12 (n01 h), ?_⟩
  intro a ha
  obtain ⟨term01, ev01⟩ := f01 a ha
  constructor
  · intro hat
    exact (f12 a (term01 hat)).1 hat
  · rcases ev01 with hnone | ⟨b, hb, hev⟩
    · exact Or.inl (n12 hnone)
    · obtain ⟨_, evb⟩ := f12 b hb
      rcases evb with hnone2 | ⟨c, hc, hev2⟩
      · exact Or.inl hnone2
      · exact Or.inr ⟨c, hc, taskEvolves_trans hev hev2⟩

theorem evolves_upd (l : List Task) (tl t2 : Task)
    (hlu : lookupTask l tl.id = some tl) (hid : t2.id = tl.id)
    (hterm : tl.status.isTerminal = false)
    (hrank : tl.status.rank ≤ t2.status.rank) (hres : tl.result = none) (j : String) :
    (lookupTask l j = none → lookupTask (updTask l tl.id t2) j = none) ∧
    ∀ a, lookupTask l j = some a →
      (a.status.isTerminal = true → lookupTask (updTask l tl.id t2) j = some a) ∧
      (lookupTask (updTask l tl.id t2) j = none ∨
        ∃ b, lookupTask (updTask l tl.id t2) j = some b ∧ TaskEvolves a b) := by
  by_cases hj : j = tl.id
  · subst hj
    constructor
    · intro h0
      rw [h0] at hlu
      cases hlu
    · intro a ha
      rw [hlu] at ha
      have haa : tl = a := by injection ha
      subst haa
      constructor
      · intro hat
        rw [hterm] at hat
        cases hat
      · refine Or.inr ⟨t2, lookupTask_upd_self l t2 hid hlu, hrank, ?_, ?_⟩
        · intro hth
          rw [hterm] at hth
          cases hth
        · intro hrs
          rw [hres] at hrs
          cases hrs
  · rw [lookupTask_upd_ne l t2 hid hj]
    exact ⟨fun h => h, fun a ha => ⟨fun _ => ha, Or.inr ⟨a, ha, taskEvolves_refl a⟩⟩⟩

theorem evolves_updRm (l : List Task) (tl t2 : Task)
    (hlu : lookupTask l tl.id = some tl) (hid : t2.id = tl.id)
    (hterm : tl.status.isTerminal = false) (j : String) :
    (lookupTask l j = none → lookupTask (rmTask (updTask l tl.id t2) tl.id) j = none) ∧
    ∀ a, lookupTask l j = some a →
      (a.status.isTerminal = true →
        lookupTask (rmTask (updTask l tl.id t2) tl.id) j = some a) ∧
      (lookupTask (rmTask (updTask l tl.id t2) tl.id) j = none ∨
        ∃ b, lookupTask (rmTask (updTask l tl.id t2) tl.id) j = some b ∧ TaskEvolves a b) := by
  by_cases hj : j = tl.id
  · subst hj
    rw [lookupTask_rm_self]
    constructor
    · intro _
      rfl
    · intro a ha
      rw [hlu] at ha
      have haa : tl = a := by injection ha
      subst haa
      refine ⟨?_, Or.inl rfl⟩
      intro hat
      rw [hterm] at hat
      cases hat
  · rw [lookupTask_rm_ne _ hj, lookupTask_upd_ne l t2 hid hj]
    exact ⟨fun h => h, fun a ha => ⟨fun _ => ha, Or.inr ⟨a, ha, taskEvolves_refl a⟩⟩⟩

theorem invAll_list_upd {l : List Task} (hall : ∀ x ∈ l, resultMatchesStatus x)
    {i : String} {t2 : Task} (h2 : resultMatchesStatus t2) :
    ∀ x ∈ updTask l i t2, resultMatchesStatus x := by
  intro x hx
  rcases mem_updTask hx with rfl | hx'
  · exact h2
  · exact hall x hx'

theorem invAll_list_rm {l : List Task} (hall : ∀ x ∈ l, resultMatchesStatus x) (i : String) :
    ∀ x ∈ rmTask l i, resultMatchesStatus x :=
  fun x hx => hall x ((rmTask_sublist l i).subset hx)

theorem completeRemove_spec (s : AgentState) (tl : Task) {t2 : Task} {st' : AgentState}
    (hnd : NodupIds s.currentTasks) (hinv : InvAll s)
    (hlu' : lookupTask s.currentTasks tl.id = some tl)
    (hterm : tl.status.isTerminal = false)
    (hcur : st'.currentTasks = rmTask (updTask s.currentTasks tl.id t2) tl.id)
    (hid : t2.id = tl.id) (h2 : resultMatchesStatus t2) :
    StateEvolves s st' ∧ InvAll st' ∧ NodupIds st'.currentTasks := by
  refine ⟨?_, ?_, ?_⟩
  · intro j
    rw [hcur]
    exact evolves_updRm s.currentTasks tl t2 hlu' hid hterm j
  · intro x hx
    rw [hcur] at hx
    exact invAll_list_rm (invAll_list_upd hinv h2) _ x hx
  · show NodupIds st'.currentTasks
    rw [hcur]
    exact nodupIds_rmTask _ (nodupIds_updTask hnd hid)

theorem failInPlace_spec (s : AgentState) (tl : Task) {t2 : Task} {st' : AgentState}
    (hnd : NodupIds s.currentTasks) (hinv : InvAll s)
    (hlu' : lookupTask s.currentTasks tl.id = some tl)
    (hterm : tl.status.isTerminal = false)
    (hcur : st'.currentTasks = updTask s.currentTasks tl.id t2)
    (hid : t2.id = tl.id) (h2 : resultMatchesStatus t2)
    (hrank : tl.status.rank ≤ t2.status.rank) (hres : tl.result = none) :
    StateEvolves s st' ∧ InvAll st' ∧ NodupIds st'.currentTasks := by
  refine ⟨?_, ?_, ?_⟩
  · intro j
    rw [hcur]
    exact evolves_upd s.currentTasks tl t2 hlu' hid hterm hrank hres j
  · intro x hx
    rw [hcur] at hx
    exact invAll_list_upd hinv h2 x hx
  · show NodupIds st'.currentTasks
    rw [hcur]
    exact nodupIds_updTask hnd hid

theorem scanStep_spec (f : Task → Outcome) (s : AgentState) (u : Task)
    (hnd : NodupIds s.currentTasks) (hinv : InvAll s) :
    StateEvolves s (scanStep f s u) ∧ InvAll (scanStep f s u) ∧
    NodupIds (scanStep f s u).currentTasks := by
  cases hlu : lookupTask s.currentTasks u.id with
  | none =>
    simp only [scanStep, hlu]
    exact ⟨stateEvolves_refl s, hinv, hnd⟩
  | some tl =>
    by_cases hp : tl.status = .pending
    · simp only [scanStep, hlu, if_pos hp]
      have hmem : tl ∈ s.currentTasks := (lookupTask_mem hlu).1
      have hid : tl.id = u.id := (lookupTask_mem hlu).2
      have hlu' : lookupTask s.currentTasks tl.id = some tl := by
        rw [hid]
        exact hlu
      have hterm : tl.status.isTerminal = false := by
        rw [hp]
        rfl
      have hi : tl.result.isSome = tl.status.isTerminal := hinv tl hmem
      have hres : tl.result = none := by
        rw [hterm] at hi
        cases hres' : tl.result with
        | none => rfl
        | some v =>
          rw [hres'] at hi
          exact Bool.noConfusion hi
      have hrank : ∀ t2 : Task, tl.status.rank ≤ t2.status.rank := by
        intro t2
        rw [hp]
        exact Nat.zero_le _
      cases hfo : f tl with
      | base o =>
        cases o with
        | success parts =>
          apply completeRemove_spec s tl hnd hinv hlu' hterm
          · rfl
          · rfl
          · rfl
        | exc e =>
          apply failInPlace_spec s tl hnd hinv hlu' hterm
          · rfl
          · rfl
          · rfl
          · exact hrank _
          · exact hres
      | coding o =>
        cases o with
        | sdkUnavailable =>
          apply completeRemove_spec s tl hnd hinv hlu' hterm
          · rfl
          · rfl
          · rfl
        | queryFail e =>
          apply completeRemove_spec s tl hnd hinv hlu' hterm
          · rfl
          · rfl
          · rfl
        | querySuccess parts fb fa =>
          apply completeRemove_spec s tl hnd hinv hlu' hterm
          · rfl
          · rfl
          · rfl
        | raiseExc e =>
          apply failInPlace_spec s tl hnd hinv hlu' hterm
          · rfl
          · rfl
          · rfl
          · exact hrank _
          · exact hres
    · simp only [scanStep, hlu, if_neg hp]
      exact ⟨stateEvolves_refl s, hinv, hnd⟩

theorem scanTasks_spec (f : Task → Outcome) :
    ∀ (snap : List Task) (s : AgentState), NodupIds s.currentTasks → InvAll s →
      StateEvolves s (scanTasks f snap s) ∧ InvAll (scanTasks f snap s) ∧
      NodupIds (scanTasks f snap s).currentTasks := by
  intro snap
  induction snap with
  | nil =>
    intro s h1 h2
    exact ⟨stateEvolves_refl s, h2, h1⟩
  | cons u rest ih =>
    intro s h1 h2
    obtain ⟨se1, inv1, nd1⟩ := scanStep_spec f s u h1 h2
    obtain ⟨se2, inv2, nd2⟩ := ih (scanStep f s u) nd1 inv1
    exact ⟨stateEvolves_trans se1 se2, inv2, nd2⟩

theorem scan_preserves_tasks (f : Task → Outcome) (st1 : AgentState) (origin : List Task)
    (hnd1 : NodupIds st1.currentTasks) (hinv1 : InvAll st1)
    (horig : ∀ t ∈ origin, lookupTask st1.currentTasks t.id = some t) :
    InvAll (scanTasks f st1.currentTasks st1) ∧
    NodupIds (scanTasks f st1.currentTasks st1).currentTasks ∧
    ∀ t ∈ origin,
      (t.status.isTerminal = true →
        lookupTask (scanTasks f st1.currentTasks st1).currentTasks t.id = some t) ∧
      ∀ t', lookupTask (scanTasks f st1.currentTasks st1).currentTasks t.id = some t' →
        t.status.rank ≤ t'.status.rank ∧
        (t.result.isSome = true → t'.result = t.result) ∧
        t'.result.isSome = t'.status.isTerminal := by
  obtain ⟨se, invf, ndf⟩ := scanTasks_spec f st1.currentTasks st1 hnd1 hinv1
  refine ⟨invf, ndf, ?_⟩
  intro t ht
  obtain ⟨hterm', hdisj⟩ := (se t.id).2 t (horig t ht)
  refine ⟨hterm', ?_⟩
  intro t' ht'
  rcases hdisj with hnone | ⟨b, hb, hev⟩
  · rw [hnone] at ht'
    cases ht'
  · rw [hb] at ht'
    have hbt : b = t' := by injection ht'
    subst hbt
    exact ⟨hev.1, hev.2.2, invf b (lookupTask_mem hb).1⟩

/-- C3: one iteration of the autonomous loop (message intake followed by the
pending-task scan) only moves task statuses forward along the rank order
pending, in-progress, terminal; completed and failed tasks are left exactly
as they are; a populated result field is never reassigned; and every task
still satisfies the result-tracks-terminality invariant, which pins the
single assignment of result to the transition into completed or failed. -/
theorem task_lifecycle_monotonic (st : AgentState) (f : Task → Outcome) (newId : String)
    (hnd : NodupIds st.currentTasks) (hinv : InvAll st)
    (hfresh : ∀ t ∈ st.currentTasks, t.id ≠ newId) :
    InvAll (loopIterBody st f newId) ∧
    NodupIds (loopIterBody st f newId).currentTasks ∧
    ∀ t ∈ st.currentTasks,
      (t.status.isTerminal = true →
        lookupTask (loopIterBody st f newId).currentTasks t.id = some t) ∧
      ∀ t', lookupTask (loopIterBody st f newId).currentTasks t.id = some t' →
        t.status.rank ≤ t'.status.rank ∧
        (t.result.isSome = true → t'.result = t.result) ∧
        t'.result.isSome = t'.status.isTerminal := by
  cases hq : st.messageQueue with
  | nil =>
    simp only [loopIterBody, hq]
    exact scan_preserves_tasks f st st.currentTasks hnd hinv
      (fun t ht => lookupTask_self hnd ht)
  | cons m rest =>
    by_cases hmt : m.messageType = "task_request"
    · simp only [loopIterBody, hq, processAgentMessage, if_pos hmt]
      have hnd1 : NodupIds
          (st.currentTasks ++ [taskFromMessage st.agentId m newId]) := by
        simp only [NodupIds, List.map_append, List.map_cons, List.map_nil]
        rw [List.nodup_append]
        refine ⟨hnd, List.nodup_singleton _, ?_⟩
        intro a ha hb
        rw [List.mem_map] at ha
        obtain ⟨t, ht, rfl⟩ := ha
        rw [List.mem_singleton] at hb
        exact hfresh t ht hb
      have hinv1 : ∀ x ∈ st.currentTasks ++ [taskFromMessage st.agentId m newId],
          resultMatchesStatus x := by
        intro x hx
        rcases List.mem_append.mp hx with hx' | hx'
        · exact hinv x hx'
        · rw [List.mem_singleton] at hx'
          subst hx'
          rfl
      have horig : ∀ t ∈ st.currentTasks,
          lookupTask (st.currentTasks ++ [taskFromMessage st.agentId m newId]) t.id
            = some t :=
        fun t ht => lookupTask_append_left (lookupTask_self hnd ht)
      exact scan_preserves_tasks f
        { st with messageQueue := rest,
                  currentTasks := st.currentTasks ++ [taskFromMessage st.agentId m newId] }
        st.currentTasks hnd1 hinv1 horig
    · simp only [loopIterBody, hq, processAgentMessage, if_neg hmt]
      exact scan_preserves_tasks f { st with messageQueue := rest } st.currentTasks hnd hinv
        (fun t ht => lookupTask_self hnd ht)

/-- Concrete terminal task (already failed, result recorded) used by the
loop witness. -/
def exTaskDone : Task :=
  { id := "t2", description := "old work", assignedTo := "backend_coder",
    status := .failed, result := some (.str "Error: x") }

/-- Concrete two-task agent used by the loop witness. -/
def exAgentLoop : AgentState :=
  { agentId := "backend_coder", role := "backend_coder",
    currentTasks := [exTask, exTaskDone] }

/-- C3 witness: one pending and one failed task, a successful execution
outcome and a fresh message-task identifier. -/
theorem task_lifecycle_monotonic_witness :
    NodupIds exAgentLoop.currentTasks ∧
    InvAll exAgentLoop ∧
    (∀ t ∈ exAgentLoop.currentTasks, t.id ≠ "n1") ∧
    (InvAll (loopIterBody exAgentLoop (fun _ => Outcome.base (.success ["ok"])) "n1") ∧
     NodupIds (loopIterBody exAgentLoop
        (fun _ => Outcome.base (.success ["ok"])) "n1").currentTasks ∧
     ∀ t ∈ exAgentLoop.currentTasks,
       (t.status.isTerminal = true →
         lookupTask (loopIterBody exAgentLoop
            (fun _ => Outcome.base (.success ["ok"])) "n1").currentTasks t.id = some t) ∧
       ∀ t', lookupTask (loopIterBody exAgentLoop
            (fun _ => Outcome.base (.success ["ok"])) "n1").currentTasks t.id = some t' →
         t.status.rank ≤ t'.status.rank ∧
         (t.result.isSome = true → t'.result = t.result) ∧
         t'.result.isSome = t'.status.isTerminal) :=
  ⟨by decide, by decide, by decide,
    task_lifecycle_monotonic exAgentLoop (fun _ => Outcome.base (.success ["ok"])) "n1"
      (by decide) (by decide) (by decide)⟩

/-! ## Claim C8: TaskBuilder line structure -/

theorem splitNl_append (l cs : List Char) (hl : '\n' ∉ l) {h : List Char}
    {tl : List (List Char)} (hcs : splitNl cs = h :: tl) :
    splitNl (l ++ cs) = (l ++ h) :: tl := by
  induction l with
  | nil => simpa using hcs
  | cons c l ih =>
    have hc : ¬ c = '\n' := fun hh => hl (hh ▸ List.mem_cons_self c l)
    have hl' : '\n' ∉ l := fun hm => hl (List.mem_cons_of_mem c hm)
    rw [List.cons_append, splitNl, if_neg hc, ih hl']
    rfl

theorem splitNl_nl_free (l : List Char) (hl : '\n' ∉ l) : splitNl l = [l] := by
  have h0 : splitNl ([] : List Char) = [] :: [] := rfl
  have := splitNl_append l [] hl h0
  simpa using this

theorem intercalate_go_data (as : List String) :
    ∀ acc : String, (String.intercalate.go acc "\n" as).data
      = acc.data ++ (as.map (fun a => '\n' :: a.data)).flatten := by
  induction as with
  | nil =>
    intro acc
    simp [String.intercalate.go]
  | cons a as ih =>
    intro acc
    show (String.intercalate.go (acc ++ "\n" ++ a) "\n" as).data = _
    rw [ih (acc ++ "\n" ++ a)]
    simp [String.data_append, List.append_assoc]

theorem strJoinNl_data (a : String) (as : List String) :
    (strJoinNl (a :: as)).data = a.data ++ (as.map (fun x => '\n' :: x.data)).flatten := by
  show (String.intercalate.go a "\n" as).data = _
  exact intercalate_go_data as a

theorem splitNl_strJoinNl (parts : List String) (h : ∀ p ∈ parts, '\n' ∉ p.data) :
    parts ≠ [] → splitNl ((strJoinNl parts).data) = parts.map String.data := by
  induction parts with
  | nil => intro hne; cases hne rfl
  | cons a as ih =>
    intro _
    cases as with
    | nil =>
      rw [strJoinNl_data]
      simp only [List.map_nil, List.flatten_nil, List.append_nil]
      rw [splitNl_nl_free a.data (h a (List.mem_cons_self a []))]
      rfl
    | cons b bs =>
      have hdata : (strJoinNl (a :: b :: bs)).data
          = a.data ++ '\n' :: (strJoinNl (b :: bs)).data := by
        rw [strJoinNl_data, strJoinNl_data]
        simp
      rw [hdata]
      have hcs : splitNl ('\n' :: (strJoinNl (b :: bs)).data)
          = [] :: splitNl ((strJoinNl (b :: bs)).data) := by
        rw [splitNl, if_pos rfl]
      rw [splitNl_append a.data _ (h a (List.mem_cons_self a _)) hcs]
      rw [ih (fun p hp => h p (List.mem_cons_of_mem a hp)) (by simp)]
      simp

theorem linesOf_strJoinNl (parts : List String) (h : ∀ p ∈ parts, '\n' ∉ p.data)
    (hne : parts ≠ []) : linesOf (strJoinNl parts) = parts := by
  rw [linesOf, splitNl_strJoinNl parts h hne, List.map_map]
  calc parts.map _ = parts.map id := List.map_congr_left (fun p _ => rfl)
    _ = parts := List.map_id parts

theorem nl_notMem_append {s : String} (pre : String) (hpre : '\n' ∉ pre.data)
    (hs : '\n' ∉ s.data) : '\n' ∉ (pre ++ s).data := by
  rw [String.data_append]
  intro hm
  rcases List.mem_append.mp hm with hm' | hm'
  · exact hpre hm'
  · exact hs hm'

/-- C8 (amended): for every non-empty newline-free objective O and
newline-free r1, r2, c1, d1, the built text splits into exactly the lines
Main Objective, Requirements header, the two requirement bullets, the
Constraints header and bullet, the Deliverables header and bullet, in that
order.  When the objective is the empty string, the objective line is
omitted (Python truthiness skips the section). -/
theorem taskBuilder_build_line_structure (O r1 r2 c1 d1 : String)
    (hO : O ≠ "") (hOn : '\n' ∉ O.data) (h1 : '\n' ∉ r1.data) (h2 : '\n' ∉ r2.data)
    (h3 : '\n' ∉ c1.data) (h4 : '\n' ∉ d1.data) :
    linesOf (TaskBuilder.build
        { objective := O, requirements := [r1, r2],
          constraints := [c1], deliverables := [d1] }) =
      ["Main Objective: " ++ O, "Requirements:", "- " ++ r1, "- " ++ r2,
       "Constraints:", "- " ++ c1, "Deliverables:", "- " ++ d1] := by
  have hparts : TaskBuilder.buildParts
      { objective := O, requirements := [r1, r2],
        constraints := [c1], deliverables := [d1] } =
      ["Main Objective: " ++ O, "Requirements:", "- " ++ r1, "- " ++ r2,
       "Constraints:", "- " ++ c1, "Deliverables:", "- " ++ d1] := by
    simp [TaskBuilder.buildParts, hO]
  rw [TaskBuilder.build, hparts]
  apply linesOf_strJoinNl
  · intro p hp
    simp only [List.mem_cons, List.not_mem_nil, or_false] at hp
    rcases hp with rfl | rfl | rfl | rfl | rfl | rfl | rfl | rfl
    · exact nl_notMem_append "Main Objective: " (by decide) hOn
    · decide
    · exact nl_notMem_append "- " (by decide) h1
    · exact nl_notMem_append "- " (by decide) h2
    · decide
    · exact nl_notMem_append "- " (by decide) h3
    · decide
    · exact nl_notMem_append "- " (by decide) h4
  · simp

/-- C8 counterexample: with the empty objective the claim fails because the
objective section is skipped entirely, so no objective line appears. -/
theorem taskBuilder_empty_objective_counterexample :
    linesOf (TaskBuilder.build
        { objective := "", requirements := ["a", "b"], constraints := ["c"],
          deliverables := ["d"] }) =
      ["Requirements:", "- a", "- b", "Constraints:", "- c", "Deliverables:", "- d"] ∧
    "Main Objective: " ∉ linesOf (TaskBuilder.build
        { objective := "", requirements := ["a", "b"], constraints := ["c"],
          deliverables := ["d"] }) := by
  constructor
  · decide
  · decide

/-- C8 witness: a concrete builder with a non-empty objective. -/
theorem taskBuilder_build_line_structure_witness :
    (("Build an app" : String) ≠ "" ∧ '\n' ∉ "Build an app".data ∧
     '\n' ∉ "login".data ∧ '\n' ∉ "storage".data ∧
     '\n' ∉ "use python".data ∧ '\n' ∉ "a web app".data) ∧
    linesOf (TaskBuilder.build
        { objective := "Build an app", requirements := ["login", "storage"],
          constraints := ["use python"], deliverables := ["a web app"] }) =
      ["Main Objective: " ++ "Build an app", "Requirements:", "- " ++ "login",
       "- " ++ "storage", "Constraints:", "- " ++ "use python", "Deliverables:",
       "- " ++ "a web app"] :=
  ⟨⟨by decide, by decide, by decide, by decide, by decide, by decide⟩,
    taskBuilder_build_line_structure "Build an app" "login" "storage" "use python"
      "a web app" (by decide) (by decide) (by decide) (by decide) (by decide) (by decide)⟩

end MultiAgent
